import Mathlib

/-!
# Verification of the AdvancedRigidBodies 2D physics engine

Shallow embedding of the simulation core (RigidBody.cpp, SpatialGrid.cpp,
PhysicsEngine.cpp) over exact rationals, together with proofs and
refutations of the specified properties.

Modelling conventions:
* `float` values are modelled as exact rationals; decimal literals of the
  source (`0.99f`, `1.01f`, ...) become the corresponding rationals.
* `std::sqrt` is modelled by `ratSqrt`, a computable rational square root
  that is exact whenever its argument is the square of a rational (this
  covers every concrete scenario below); no general theorem in this file
  depends on the values of `ratSqrt` away from that set.
* Pointer identity of heap-allocated bodies (used by the spatial grid's
  pair hash) is modelled by an arbitrary address assignment `addrs : ℕ → ℕ`
  giving the address of the k-th body of the engine's collection.
* Rendering (draw functions) and the particle-effect system are not
  modelled: they consume body state but never feed back into it.
-/

attribute [local semireducible] Rat.mul Rat.add Rat.sub Rat.inv

set_option maxRecDepth 8000

namespace RigidSim

/-- 2D vector with exact rational coordinates (model of `sf::Vector2f`). -/
structure Vec2 where
  x : ℚ
  y : ℚ
deriving DecidableEq, Repr

instance : Add Vec2 := ⟨fun a b => ⟨a.x + b.x, a.y + b.y⟩⟩

instance : Sub Vec2 := ⟨fun a b => ⟨a.x - b.x, a.y - b.y⟩⟩

instance : Neg Vec2 := ⟨fun a => ⟨-a.x, -a.y⟩⟩

instance : SMul ℚ Vec2 := ⟨fun c v => ⟨c * v.x, c * v.y⟩⟩

/-- Division of a vector by a scalar (`sf::Vector2f / float`). -/
def Vec2.divScalar (v : Vec2) (c : ℚ) : Vec2 := ⟨v.x / c, v.y / c⟩

/-- Modelled from the spec: `PhysicsUtils::dot` of `Vector2Utils.hpp` (file not
under `src/`): the Euclidean dot product. -/
def dot (a b : Vec2) : ℚ := a.x * b.x + a.y * b.y

/-- Modelled from the spec: `PhysicsUtils::cross` of `Vector2Utils.hpp` (file not
under `src/`): the scalar 2D cross product `a.x*b.y - a.y*b.x` (the source uses
it as `torque = cross(r, force)`, spec §4.1). -/
def cross (a b : Vec2) : ℚ := a.x * b.y - a.y * b.x

/-- Newton iteration for the integer square root, with explicit fuel (so that
it unfolds by plain reduction). -/
def isqrtIter (n : ℕ) : ℕ → ℕ → ℕ
  | 0, x => x
  | f + 1, x =>
    let x1 := (x + n / x) / 2
    if x1 < x then isqrtIter n f x1 else x

/-- Integer square root (rounded down); 100 Newton steps are ample for every
number that can arise here. -/
def natSqrt (n : ℕ) : ℕ := if n = 0 then 0 else isqrtIter n 100 n

/-- Computable rational square root: exact whenever the argument is the square
of a rational, which covers every concrete scenario in this file. Models
`std::sqrt`; no general theorem below depends on its values away from exact
squares. -/
def ratSqrt (q : ℚ) : ℚ := (natSqrt (q.num.toNat * q.den) : ℚ) / (q.den : ℚ)

/-- Modelled from the spec: `PhysicsUtils::length` of `Vector2Utils.hpp` (file
not under `src/`): the Euclidean norm `√(x² + y²)`. -/
def vlength (v : Vec2) : ℚ := ratSqrt (v.x * v.x + v.y * v.y)

/-- Modelled from the spec: `PhysicsUtils::normalise` of `Vector2Utils.hpp`
(file not under `src/`): the vector divided by its length (spec §4.3: "unit
normal points from body A toward body B"). -/
def normalise (v : Vec2) : Vec2 := v.divScalar (vlength v)

/-- `std::clamp(v, lo, hi)`. -/
def clampQ (v lo hi : ℚ) : ℚ := if v < lo then lo else if hi < v then hi else v

/-- RGB colour (model of `sf::Color`; rendering-only, carried for fidelity of
the constructor). -/
structure Colour where
  r : ℕ
  g : ℕ
  b : ℕ
deriving DecidableEq, Repr

/-- `RigidBody::CollisionInfo`: transient collision-diagnostic record. -/
structure CollisionInfo where
  contactPoint : Vec2
  normal : Vec2
  penetration : ℚ
  lifetime : ℚ
deriving DecidableEq, Repr

/-- The state of one `RigidBody` (RigidBody.hpp). The motion trail stores
(position, alpha) pairs, newest first (model of the `std::deque`). -/
structure RigidBody where
  position : Vec2
  velocity : Vec2
  acceleration : Vec2
  mass : ℚ
  radius : ℚ
  rotation : ℚ
  angularVelocity : ℚ
  angularAcceleration : ℚ
  inertia : ℚ
  restitution : ℚ
  friction : ℚ
  isStatic : Bool
  colour : Colour
  trailTimer : ℚ
  impactIntensity : ℚ
  squashStretch : ℚ
  appliedForce : Vec2
  motionTrail : List (Vec2 × ℚ)
  collisionInfos : List CollisionInfo
deriving DecidableEq, Repr

/-- `RigidBody::RigidBody(pos, r, m, col, stat)` (RigidBody.cpp lines 7-15):
initialises every field from the argument list and derives
`inertia = 0.5 * mass * radius²`. The source constructor performs no
validation of `m` or `r` and has no failure path. -/
def mkRigidBody (pos : Vec2) (r m : ℚ) (col : Colour) (stat : Bool) : RigidBody where
  position := pos
  radius := r
  mass := m
  colour := col
  isStatic := stat
  velocity := ⟨0, 0⟩
  acceleration := ⟨0, 0⟩
  rotation := 0
  angularVelocity := 0
  angularAcceleration := 0
  restitution := 6/10
  friction := 0
  trailTimer := 0
  impactIntensity := 0
  squashStretch := 1
  appliedForce := ⟨0, 0⟩
  inertia := (1/2) * m * (r * r)
  motionTrail := []
  collisionInfos := []

/-- `RigidBody::applyForce` (RigidBody.cpp lines 17-22). -/
def RigidBody.applyForce (force : Vec2) (b : RigidBody) : RigidBody :=
  if b.isStatic then b
  else { b with acceleration := b.acceleration + force.divScalar b.mass,
                appliedForce := force }

/-- `RigidBody::applyTorque` (RigidBody.cpp lines 34-38). -/
def RigidBody.applyTorque (torque : ℚ) (b : RigidBody) : RigidBody :=
  if b.isStatic then b
  else { b with angularAcceleration := b.angularAcceleration + torque / b.inertia }

/-- `RigidBody::applyForceAtPoint` (RigidBody.cpp lines 24-32). -/
def RigidBody.applyForceAtPoint (force point : Vec2) (b : RigidBody) : RigidBody :=
  if b.isStatic then b
  else
    let b1 := { b with acceleration := b.acceleration + force.divScalar b.mass }
    RigidBody.applyTorque (cross (point - b1.position) force) b1

/-- `RigidBody::update(deltaTime)` (RigidBody.cpp lines 40-71): semi-implicit
Euler integration, 1% linear drag, the angular-state reset of the baseline
("Stage 4" extension point), trail bookkeeping, visual decay, and the reset of
the per-step accumulators. -/
def RigidBody.update (dt : ℚ) (b : RigidBody) : RigidBody :=
  if b.isStatic then b
  else
    let vel1 := b.velocity + dt • b.acceleration
    let pos1 := b.position + dt • vel1
    let vel2 := (99/100 : ℚ) • vel1
    let timer1 := b.trailTimer + dt
    let st :=
      if (5/100 : ℚ) ≤ timer1 then
        let t := (pos1, (1 : ℚ)) :: b.motionTrail
        ((0 : ℚ), if 30 < t.length then t.dropLast else t)
      else (timer1, b.motionTrail)
    let trail2 := st.2.map (fun p => (p.1, (95/100 : ℚ) * p.2))
    { b with
      position := pos1
      velocity := vel2
      rotation := 0
      angularVelocity := 0
      angularAcceleration := 0
      trailTimer := st.1
      motionTrail := trail2
      impactIntensity := (9/10 : ℚ) * b.impactIntensity
      squashStretch := b.squashStretch + (1 - b.squashStretch) * (2/10 : ℚ)
      acceleration := ⟨0, 0⟩
      appliedForce := ⟨0, 0⟩ }

/-- `RigidBody::addCollisionInfo` (RigidBody.cpp lines 275-277): appends a
record with full initial lifetime. -/
def RigidBody.addCollisionInfo (point normal : Vec2) (penetration : ℚ)
    (b : RigidBody) : RigidBody :=
  { b with collisionInfos := b.collisionInfos ++ [⟨point, normal, penetration, 1⟩] }

/-- `RigidBody::updateCollisionInfo(deltaTime)` (RigidBody.cpp lines 279-289):
decays every record's lifetime by `2*dt` and erases the records whose lifetime
has reached zero or below. -/
def RigidBody.updateCollisionInfo (dt : ℚ) (b : RigidBody) : RigidBody :=
  { b with collisionInfos :=
      ((b.collisionInfos.map (fun i => { i with lifetime := i.lifetime - dt * 2 })).filter
        (fun i => ¬ i.lifetime ≤ 0)) }

/-- `RigidBody::checkBoundaryCollision(width, height)`
(RigidBody.cpp lines 73-116): no-op for a static body; otherwise the four
independent wall checks in source order (x-low, x-high, y-low, y-high), each
clamping the position, reflecting the perpendicular velocity scaled by
`restitution` and damping tangential velocity and angular velocity by
`(1 - friction)`; on any hit the impact intensity is set from the final
speed. -/
def RigidBody.checkBoundaryCollision (width height : ℚ) (b : RigidBody) : RigidBody :=
  if b.isStatic then b
  else
    let s0 : RigidBody × Bool := (b, false)
    let s1 : RigidBody × Bool :=
      if s0.1.position.x - s0.1.radius < 0 then
        ({ s0.1 with
            position := ⟨s0.1.radius, s0.1.position.y⟩
            velocity := ⟨-s0.1.velocity.x * s0.1.restitution,
                         s0.1.velocity.y * (1 - s0.1.friction)⟩
            angularVelocity := s0.1.angularVelocity * (1 - s0.1.friction) }, true)
      else s0
    let s2 : RigidBody × Bool :=
      if width < s1.1.position.x + s1.1.radius then
        ({ s1.1 with
            position := ⟨width - s1.1.radius, s1.1.position.y⟩
            velocity := ⟨-s1.1.velocity.x * s1.1.restitution,
                         s1.1.velocity.y * (1 - s1.1.friction)⟩
            angularVelocity := s1.1.angularVelocity * (1 - s1.1.friction) }, true)
      else s1
    let s3 : RigidBody × Bool :=
      if s2.1.position.y - s2.1.radius < 0 then
        ({ s2.1 with
            position := ⟨s2.1.position.x, s2.1.radius⟩
            velocity := ⟨s2.1.velocity.x * (1 - s2.1.friction),
                         -s2.1.velocity.y * s2.1.restitution⟩
            angularVelocity := s2.1.angularVelocity * (1 - s2.1.friction) }, true)
      else s2
    let s4 : RigidBody × Bool :=
      if height < s3.1.position.y + s3.1.radius then
        ({ s3.1 with
            position := ⟨s3.1.position.x, height - s3.1.radius⟩
            velocity := ⟨s3.1.velocity.x * (1 - s3.1.friction),
                         -s3.1.velocity.y * s3.1.restitution⟩
            angularVelocity := s3.1.angularVelocity * (1 - s3.1.friction) }, true)
      else s3
    if s4.2 then { s4.1 with impactIntensity := min 1 (vlength s4.1.velocity / 100) }
    else s4.1

/-!
## Narrow phase (`PhysicsEngine::checkCollision`, PhysicsEngine.cpp lines 86-386)

The scalar and vector quantities computed inside `checkCollision` are hoisted
into named definitions of the two input bodies; `PhysicsEngine.checkCollision`
below is their composition, in source order. All quantities are functions of
the pre-call states of the two bodies, exactly as in the source (the contact
offsets `r1`, `r2` are taken from the position-corrected positions, as the
source reads `getPosition()` after `setPosition`).
-/

/-- `diff = body2.position - body1.position` (line 90). -/
def rawDiff (b1 b2 : RigidBody) : Vec2 := b2.position - b1.position

/-- `distance = length(diff)` before the degenerate-case guard (line 91). -/
def rawDistance (b1 b2 : RigidBody) : ℚ := vlength (rawDiff b1 b2)

/-- `minDistance = radius1 + radius2` (line 92). -/
def minDistance (b1 b2 : RigidBody) : ℚ := b1.radius + b2.radius

/-- `distance` after the coincident-centre guard (lines 98-101). -/
def colDistance (b1 b2 : RigidBody) : ℚ :=
  if rawDistance b1 b2 < 1/1000 then 1/1000 else rawDistance b1 b2

/-- `diff` after the coincident-centre guard (lines 98-101). -/
def colDiff (b1 b2 : RigidBody) : Vec2 :=
  if rawDistance b1 b2 < 1/1000 then minDistance b1 b2 • (⟨1, 0⟩ : Vec2)
  else rawDiff b1 b2

/-- `normal = normalise(diff)` (line 112). -/
def colNormal (b1 b2 : RigidBody) : Vec2 := normalise (colDiff b1 b2)

/-- `overlap = minDistance - distance` (line 122). -/
def overlap (b1 b2 : RigidBody) : ℚ := minDistance b1 b2 - colDistance b1 b2

/-- `contactPoint = body1.position + normal * radius1` (line 135). -/
def contactPoint (b1 b2 : RigidBody) : Vec2 :=
  b1.position + b1.radius • colNormal b1 b2

/-- `body1`'s position after the position correction (lines 151-161). -/
def corrPos1 (b1 b2 : RigidBody) : Vec2 :=
  if ¬ b1.isStatic ∧ ¬ b2.isStatic then
    b1.position - (overlap b1 b2 * (1/2) * (101/100)) • colNormal b1 b2
  else if ¬ b1.isStatic then
    b1.position - (overlap b1 b2 * (101/100)) • colNormal b1 b2
  else b1.position

/-- `body2`'s position after the position correction (lines 151-161). -/
def corrPos2 (b1 b2 : RigidBody) : Vec2 :=
  if ¬ b1.isStatic ∧ ¬ b2.isStatic then
    b2.position + (overlap b1 b2 * (1/2) * (101/100)) • colNormal b1 b2
  else if b1.isStatic ∧ ¬ b2.isStatic then
    b2.position + (overlap b1 b2 * (101/100)) • colNormal b1 b2
  else b2.position

/-- `r1 = contactPoint - body1.getPosition()` after the correction (line 181). -/
def contactR1 (b1 b2 : RigidBody) : Vec2 := contactPoint b1 b2 - corrPos1 b1 b2

/-- `r2 = contactPoint - body2.getPosition()` after the correction (line 182). -/
def contactR2 (b1 b2 : RigidBody) : Vec2 := contactPoint b1 b2 - corrPos2 b1 b2

/-- `v1`: body1's velocity at the contact point, linear plus rotational
contribution `(-ω·r.y, ω·r.x)` (line 185). -/
def contactVel1 (b1 b2 : RigidBody) : Vec2 :=
  b1.velocity + ⟨-b1.angularVelocity * (contactR1 b1 b2).y,
                 b1.angularVelocity * (contactR1 b1 b2).x⟩

/-- `v2`: body2's velocity at the contact point (line 186). -/
def contactVel2 (b1 b2 : RigidBody) : Vec2 :=
  b2.velocity + ⟨-b2.angularVelocity * (contactR2 b1 b2).y,
                 b2.angularVelocity * (contactR2 b1 b2).x⟩

/-- `relativeVelocity = v2 - v1` (line 193). -/
def relativeVelocity (b1 b2 : RigidBody) : Vec2 :=
  contactVel2 b1 b2 - contactVel1 b1 b2

/-- `velocityAlongNormal = dot(relativeVelocity, normal)` (line 194). -/
def velocityAlongNormal (b1 b2 : RigidBody) : ℚ :=
  dot (relativeVelocity b1 b2) (colNormal b1 b2)

/-- `e = min(restitution1, restitution2)` (line 211). -/
def restitutionE (b1 b2 : RigidBody) : ℚ := min b1.restitution b2.restitution

/-- `invMassSum` (lines 232-234): inverse masses, zero for static bodies. -/
def invMassSum (b1 b2 : RigidBody) : ℚ :=
  (if ¬ b1.isStatic then 1 / b1.mass else 0) +
  (if ¬ b2.isStatic then 1 / b2.mass else 0)

/-- `invInertiaSum` (lines 243-245): `(r × n)² / I` terms, zero for static
bodies. -/
def invInertiaSum (b1 b2 : RigidBody) : ℚ :=
  (if ¬ b1.isStatic then
    cross (contactR1 b1 b2) (colNormal b1 b2) * cross (contactR1 b1 b2) (colNormal b1 b2)
      / b1.inertia
   else 0) +
  (if ¬ b2.isStatic then
    cross (contactR2 b1 b2) (colNormal b1 b2) * cross (contactR2 b1 b2) (colNormal b1 b2)
      / b2.inertia
   else 0)

/-- Normal impulse magnitude
`j = -(1+e) * velocityAlongNormal / (invMassSum + invInertiaSum)`
(lines 266-267). -/
def normalImpulseJ (b1 b2 : RigidBody) : ℚ :=
  (-(1 + restitutionE b1 b2) * velocityAlongNormal b1 b2) /
    (invMassSum b1 b2 + invInertiaSum b1 b2)

/-- `impulse = j * normal` (line 274). -/
def impulseVec (b1 b2 : RigidBody) : Vec2 :=
  normalImpulseJ b1 b2 • colNormal b1 b2

/-- `tangent` before normalisation:
`relativeVelocity - normal * velocityAlongNormal` (line 333). -/
def tangentRaw (b1 b2 : RigidBody) : Vec2 :=
  relativeVelocity b1 b2 - velocityAlongNormal b1 b2 • colNormal b1 b2

/-- The normalised tangent (line 337). -/
def tangentN (b1 b2 : RigidBody) : Vec2 := normalise (tangentRaw b1 b2)

/-- `frictionCoeff = (friction1 + friction2) * 0.5` (line 344). -/
def frictionCoeff (b1 b2 : RigidBody) : ℚ :=
  (b1.friction + b2.friction) * (1/2)

/-- Unclamped tangential impulse
`jt = -dot(relativeVelocity, tangent) / (invMassSum + invInertiaSum)`
(lines 350-351). -/
def frictionJtRaw (b1 b2 : RigidBody) : ℚ :=
  (-(dot (relativeVelocity b1 b2) (tangentN b1 b2))) /
    (invMassSum b1 b2 + invInertiaSum b1 b2)

/-- `frictionLimit = |j * frictionCoeff|` (line 367). -/
def frictionLimit (b1 b2 : RigidBody) : ℚ :=
  |normalImpulseJ b1 b2 * frictionCoeff b1 b2|

/-- The clamped tangential impulse magnitude
`jt = clamp(jt, -frictionLimit, frictionLimit)` (line 368). -/
def frictionJt (b1 b2 : RigidBody) : ℚ :=
  clampQ (frictionJtRaw b1 b2) (-frictionLimit b1 b2) (frictionLimit b1 b2)

/-- `frictionImpulse = jt * tangent` (line 375). -/
def frictionImpulseVec (b1 b2 : RigidBody) : Vec2 :=
  frictionJt b1 b2 • tangentN b1 b2

/-- `PhysicsEngine::checkCollision(body1, body2)` (PhysicsEngine.cpp lines
86-386): returns the updated pair of bodies. Detection, diagnostics, position
correction, separating-contact early exit, normal impulse, then Coulomb
friction, in source order. -/
def PhysicsEngine.checkCollision (b1 b2 : RigidBody) : RigidBody × RigidBody :=
  if rawDistance b1 b2 < minDistance b1 b2 then
    let n := colNormal b1 b2
    let b1a := RigidBody.addCollisionInfo (contactPoint b1 b2) (-n) (overlap b1 b2) b1
    let b2a := RigidBody.addCollisionInfo (contactPoint b1 b2) n (overlap b1 b2) b2
    let b1b := { b1a with position := corrPos1 b1 b2 }
    let b2b := { b2a with position := corrPos2 b1 b2 }
    if 0 < velocityAlongNormal b1 b2 then (b1b, b2b)
    else
      let b1c :=
        if ¬ b1.isStatic then
          { b1b with
              velocity := b1b.velocity - (impulseVec b1 b2).divScalar b1.mass
              angularVelocity := b1b.angularVelocity -
                cross (contactR1 b1 b2) (impulseVec b1 b2) / b1.inertia }
        else b1b
      let b2c :=
        if ¬ b2.isStatic then
          { b2b with
              velocity := b2b.velocity + (impulseVec b1 b2).divScalar b2.mass
              angularVelocity := b2b.angularVelocity +
                cross (contactR2 b1 b2) (impulseVec b1 b2) / b2.inertia }
        else b2b
      if 1/1000 < vlength (tangentRaw b1 b2) then
        let b1d :=
          if ¬ b1.isStatic then
            { b1c with
                velocity := b1c.velocity - (frictionImpulseVec b1 b2).divScalar b1.mass
                angularVelocity := b1c.angularVelocity -
                  cross (contactR1 b1 b2) (frictionImpulseVec b1 b2) / b1.inertia }
          else b1c
        let b2d :=
          if ¬ b2.isStatic then
            { b2c with
                velocity := b2c.velocity + (frictionImpulseVec b1 b2).divScalar b2.mass
                angularVelocity := b2c.angularVelocity +
                  cross (contactR2 b1 b2) (frictionImpulseVec b1 b2) / b2.inertia }
          else b2c
        (b1d, b2d)
      else (b1c, b2c)
  else (b1, b2)

/-!
## Broad phase (`SpatialGrid`, SpatialGrid.cpp)

Cells store the indices of bodies in the engine's collection; the pair hash
receives their heap addresses through an address assignment `addrs : ℕ → ℕ`
(the k-th body lives at address `addrs k`, fixed for the engine's lifetime).
-/

/-- Truncation toward zero: `static_cast<int>` applied to a non-integral
value. -/
def truncQ (q : ℚ) : ℤ := if 0 ≤ q then ⌊q⌋ else ⌈q⌉

/-- `std::clamp` on integers. -/
def clampI (v lo hi : ℤ) : ℤ := if v < lo then lo else if hi < v then hi else v

namespace SpatialGrid

/-- `gridWidth = ceil(worldWidth / cellSize)` (SpatialGrid.cpp line 22). -/
def gridW (worldWidth cellSize : ℚ) : ℤ := ⌈worldWidth / cellSize⌉

/-- `gridHeight = ceil(worldHeight / cellSize)` (SpatialGrid.cpp line 23). -/
def gridH (worldHeight cellSize : ℚ) : ℤ := ⌈worldHeight / cellSize⌉

/-- `SpatialGrid::getCellX` (lines 58-61): truncated division then clamp into
`[0, gridWidth-1]`. -/
def getCellX (worldWidth cellSize : ℚ) (x : ℚ) : ℤ :=
  clampI (truncQ (x / cellSize)) 0 (gridW worldWidth cellSize - 1)

/-- `SpatialGrid::getCellY` (lines 67-70). -/
def getCellY (worldHeight cellSize : ℚ) (y : ℚ) : ℤ :=
  clampI (truncQ (y / cellSize)) 0 (gridH worldHeight cellSize - 1)

/-- `SpatialGrid::getCellIndex` (lines 85-87): row-major `y*gridWidth + x`. -/
def getCellIndex (worldWidth cellSize : ℚ) (cx cy : ℤ) : ℤ :=
  cy * gridW worldWidth cellSize + cx

/-- The ascending integer list `[lo, lo+1, ...]` of the given length. -/
def intRangeGo : ℕ → ℤ → List ℤ
  | 0, _ => []
  | n + 1, x => x :: intRangeGo n (x + 1)

/-- The closed integer interval `[lo, hi]` as a list, ascending: the index
ranges of the C++ `for` loops. -/
def intRange (lo hi : ℤ) : List ℤ := intRangeGo (hi + 1 - lo).toNat lo

/-- `SpatialGrid::getCellsForBody` (lines 114-136): all cells overlapped by
the body's bounding box, row by row. -/
def getCellsForBody (w h cs : ℚ) (b : RigidBody) : List ℤ :=
  let minCellX := getCellX w cs (b.position.x - b.radius)
  let maxCellX := getCellX w cs (b.position.x + b.radius)
  let minCellY := getCellY h cs (b.position.y - b.radius)
  let maxCellY := getCellY h cs (b.position.y + b.radius)
  (intRange minCellY maxCellY).flatMap
    (fun y => (intRange minCellX maxCellX).map (fun x => getCellIndex w cs x y))

/-- `SpatialGrid::insert` (lines 158-163): append the body (its index `k`)
to every overlapped cell's list. -/
def insert (w h cs : ℚ) (k : ℕ) (b : RigidBody) (cells : ℤ → List ℕ) :
    ℤ → List ℕ :=
  (getCellsForBody w h cs b).foldl
    (fun c idx => Function.update c idx (c idx ++ [k])) cells

/-- The insertion loop of `PhysicsEngine::updateSpatialGrid`
(PhysicsEngine.cpp lines 29-34): insert every body in collection order,
numbering them from `k`. -/
def build (w h cs : ℚ) : ℕ → List RigidBody → (ℤ → List ℕ) → (ℤ → List ℕ)
  | _, [], cells => cells
  | k, b :: rest, cells => build w h cs (k + 1) rest (insert w h cs k b cells)

/-- The grid contents after `clear()` and re-insertion of all bodies. -/
def buildCells (w h cs : ℚ) (bodies : List RigidBody) : ℤ → List ℕ :=
  build w h cs 0 bodies (fun _ => [])

/-- All ordered index pairs (earlier element first) of one cell's body list:
the nested `i < j` loop of `getPotentialCollisions` (lines 200-201). -/
def cellPairs : List ℕ → List (ℕ × ℕ)
  | [] => []
  | a :: rest => rest.map (fun b => (a, b)) ++ cellPairs rest

/-- The pair hash of `getPotentialCollisions` (lines 208-213): with `p ≤ q`
the two 64-bit addresses in pointer order, `p ^ (q << 1)` on `size_t`. -/
def pairHash (addrs : ℕ → ℕ) (p : ℕ × ℕ) : ℕ :=
  let a := addrs p.1 % 2 ^ 64
  let b := addrs p.2 % 2 ^ 64
  if a < b then a ^^^ ((b <<< 1) % 2 ^ 64) else b ^^^ ((a <<< 1) % 2 ^ 64)

/-- The deduplication of `getPotentialCollisions` (lines 195-223): keep the
first pair carrying each hash value, in stream order. -/
def dedupByHash (addrs : ℕ → ℕ) : List (ℕ × ℕ) → List ℕ → List (ℕ × ℕ)
  | [], _ => []
  | p :: rest, processed =>
    if pairHash addrs p ∈ processed then dedupByHash addrs rest processed
    else p :: dedupByHash addrs rest (pairHash addrs p :: processed)

/-- `SpatialGrid::getPotentialCollisions` (lines 190-226) on the grid built
from `bodies`: cells are traversed in index order `0 .. gridW*gridH - 1`. -/
def getPotentialCollisions (w h cs : ℚ) (addrs : ℕ → ℕ)
    (bodies : List RigidBody) : List (ℕ × ℕ) :=
  let cells := buildCells w h cs bodies
  dedupByHash addrs
    ((intRange 0 (gridW w cs * gridH h cs - 1)).flatMap
      (fun idx => cellPairs (cells idx))) []

end SpatialGrid

/-!
## Engine (`PhysicsEngine`, PhysicsEngine.cpp)
-/

/-- The engine state: world bounds, gravity and the owned body collection
(the particle system and render batching are visual-only and omitted; the
spatial grid is fully rebuilt inside each update). -/
structure PhysicsEngine where
  worldWidth : ℚ
  worldHeight : ℚ
  gravity : Vec2
  bodies : List RigidBody
deriving DecidableEq, Repr

/-- `PhysicsEngine::PhysicsEngine(width, height)` (lines 7-10): gravity
`(0, 500)`, spatial grid with cell size 100. -/
def mkPhysicsEngine (width height : ℚ) : PhysicsEngine :=
  ⟨width, height, ⟨0, 500⟩, []⟩

/-- The grid cell size the engine constructs its `SpatialGrid` with
(PhysicsEngine.cpp line 9). -/
def engineCellSize : ℚ := 100

/-- Phase 1 of `PhysicsEngine::update` for one body (lines 37-42): gravity
force for the non-static bodies; collision-diagnostic aging for every body
(the `updateCollisionInfo` call sits outside the static guard). -/
def PhysicsEngine.gravityAndAge (gravity : Vec2) (dt : ℚ) (b : RigidBody) :
    RigidBody :=
  RigidBody.updateCollisionInfo dt
    (if ¬ b.isStatic then RigidBody.applyForce (b.mass • gravity) b else b)

/-- Phase 2 of `PhysicsEngine::update` for one body (lines 44-47):
integration then boundary resolution. -/
def PhysicsEngine.integrateAndBound (w h dt : ℚ) (b : RigidBody) : RigidBody :=
  RigidBody.checkBoundaryCollision w h (RigidBody.update dt b)

/-- The narrow-phase pass of `PhysicsEngine::update` (lines 53-59): resolve
each candidate pair in order, skipping static-static pairs; mutation through
the pair's two pointers is modelled by indexed writes into the collection. -/
def PhysicsEngine.resolveOne (bs : List RigidBody) (p : ℕ × ℕ) :
    List RigidBody :=
  match bs[p.1]?, bs[p.2]? with
  | some b1, some b2 =>
    if b1.isStatic ∧ b2.isStatic then bs
    else
      let r := PhysicsEngine.checkCollision b1 b2
      (bs.set p.1 r.1).set p.2 r.2
  | _, _ => bs

/-- The loop over the candidate pairs (lines 53-59). -/
def PhysicsEngine.resolvePairs (pairs : List (ℕ × ℕ))
    (bodies : List RigidBody) : List RigidBody :=
  pairs.foldl PhysicsEngine.resolveOne bodies

/-- `PhysicsEngine::update(deltaTime)` (lines 36-62): phase 1, phase 2, grid
rebuild, narrow phase. `addrs` gives the heap address of the k-th body
(fixed for the engine's lifetime). The particle-system update is visual-only
and omitted. -/
def PhysicsEngine.update (addrs : ℕ → ℕ) (dt : ℚ) (e : PhysicsEngine) :
    PhysicsEngine :=
  let bs1 := e.bodies.map (PhysicsEngine.gravityAndAge e.gravity dt)
  let bs2 := bs1.map (PhysicsEngine.integrateAndBound e.worldWidth e.worldHeight dt)
  let pairs := SpatialGrid.getPotentialCollisions e.worldWidth e.worldHeight
    engineCellSize addrs bs2
  { e with bodies := PhysicsEngine.resolvePairs pairs bs2 }

/-- A sequence of `update(dt)` calls with the time steps `dts`, oldest
first. -/
def PhysicsEngine.run (addrs : ℕ → ℕ) (dts : List ℚ) (e : PhysicsEngine) :
    PhysicsEngine :=
  dts.foldl (fun acc dt => PhysicsEngine.update addrs dt acc) e

/-!
## Spec-side description of boundary resolution (for the refinement claim)

These definitions follow the words of spec §4.1 `resolveBoundary`; the claim
compares them with `RigidBody.checkBoundaryCollision`, the definition taken
from the source.
-/

/-- Modelled from the spec: "reflect the velocity component perpendicular to
that wall scaled by `restitution`". -/
def reflectScaled (restitution v : ℚ) : ℚ := -v * restitution

/-- Modelled from the spec: "damp ... by `(1 - friction)`". -/
def dampedBy (friction v : ℚ) : ℚ := v * (1 - friction)

/-- Modelled from the spec: resolution against the `x = 0` wall — if the
circle crosses it, clamp the position to keep the circle fully inside,
reflect the perpendicular (x) velocity, damp the tangential (y) velocity and
the angular velocity, and record that a wall was hit. -/
def specWallXLow (s : RigidBody × Bool) : RigidBody × Bool :=
  if s.1.position.x - s.1.radius < 0 then
    ({ s.1 with
        position := ⟨s.1.radius, s.1.position.y⟩
        velocity := ⟨reflectScaled s.1.restitution s.1.velocity.x,
                     dampedBy s.1.friction s.1.velocity.y⟩
        angularVelocity := dampedBy s.1.friction s.1.angularVelocity }, true)
  else s

/-- Modelled from the spec: resolution against the `x = width` wall. -/
def specWallXHigh (width : ℚ) (s : RigidBody × Bool) : RigidBody × Bool :=
  if width < s.1.position.x + s.1.radius then
    ({ s.1 with
        position := ⟨width - s.1.radius, s.1.position.y⟩
        velocity := ⟨reflectScaled s.1.restitution s.1.velocity.x,
                     dampedBy s.1.friction s.1.velocity.y⟩
        angularVelocity := dampedBy s.1.friction s.1.angularVelocity }, true)
  else s

/-- Modelled from the spec: resolution against the `y = 0` wall. -/
def specWallYLow (s : RigidBody × Bool) : RigidBody × Bool :=
  if s.1.position.y - s.1.radius < 0 then
    ({ s.1 with
        position := ⟨s.1.position.x, s.1.radius⟩
        velocity := ⟨dampedBy s.1.friction s.1.velocity.x,
                     reflectScaled s.1.restitution s.1.velocity.y⟩
        angularVelocity := dampedBy s.1.friction s.1.angularVelocity }, true)
  else s

/-- Modelled from the spec: resolution against the `y = height` wall. -/
def specWallYHigh (height : ℚ) (s : RigidBody × Bool) : RigidBody × Bool :=
  if height < s.1.position.y + s.1.radius then
    ({ s.1 with
        position := ⟨s.1.position.x, height - s.1.radius⟩
        velocity := ⟨dampedBy s.1.friction s.1.velocity.x,
                     reflectScaled s.1.restitution s.1.velocity.y⟩
        angularVelocity := dampedBy s.1.friction s.1.angularVelocity }, true)
  else s

/-- Modelled from the spec (§4.1 `resolveBoundary`): no-op if static;
otherwise the four wall resolutions composed X-axis walls first (the
deliberate tie-break), each independent, so multiple walls may resolve in
one call; on any hit, the impact-flash intensity is set from the
post-collision speed, capped at 1. -/
def specResolveBoundary (width height : ℚ) (b : RigidBody) : RigidBody :=
  if b.isStatic then b
  else
    let s := specWallYHigh height (specWallYLow (specWallXHigh width (specWallXLow (b, false))))
    if s.2 then { s.1 with impactIntensity := min 1 (vlength s.1.velocity / 100) }
    else s.1

/-!
## Concrete bodies used by the scenario theorems and witnesses
-/

/-- Placeholder colour. -/
def black : Colour := ⟨0, 0, 0⟩

/-- Left body of the head-on scenario: mass 1, radius 10, restitution 1,
friction 0, at the origin, moving right at speed 10. -/
def ballL : RigidBody :=
  { mkRigidBody ⟨0, 0⟩ 10 1 black false with restitution := 1, velocity := ⟨10, 0⟩ }

/-- Right body of the head-on scenario: at `x = 19` (overlap 1), moving left
at speed 10. -/
def ballR : RigidBody :=
  { mkRigidBody ⟨19, 0⟩ 10 1 black false with restitution := 1, velocity := ⟨-10, 0⟩ }

/-- An overlapping pair that is separating: left body moving left. -/
def sepL : RigidBody :=
  { mkRigidBody ⟨0, 0⟩ 10 1 black false with velocity := ⟨-10, 0⟩ }

/-- An overlapping pair that is separating: right body moving right. -/
def sepR : RigidBody :=
  { mkRigidBody ⟨19, 0⟩ 10 1 black false with velocity := ⟨10, 0⟩ }

/-- A dynamic body sliding tangentially (speed 100) against `wallB` while
approaching it slowly (normal speed 1); friction coefficient 1/2. -/
def slideB : RigidBody :=
  { mkRigidBody ⟨0, 0⟩ 10 1 black false with velocity := ⟨1, 100⟩, friction := 1/2 }

/-- The static body `slideB` slides against. -/
def wallB : RigidBody :=
  { mkRigidBody ⟨19, 0⟩ 10 1 black true with friction := 1/2 }

/-- A dynamic body crossing both the `x = 0` and the `y = 0` wall (corner
case), moving with speed 5. -/
def cornerB : RigidBody :=
  { mkRigidBody ⟨5, 3⟩ 10 1 black false with velocity := ⟨-3, -4⟩ }

/-- A static body in the middle of a 100 by 100 world. -/
def staticDemo : RigidBody := mkRigidBody ⟨50, 50⟩ 10 1 black true

/-- Four bodies in a 400 by 100 world with 100-pixel cells: bodies 0 and 1
share cell 0 without overlapping; bodies 2 and 3 overlap (centre distance 5,
radius sum 20) and share cell 2. -/
def gridBodies : List RigidBody :=
  [mkRigidBody ⟨30, 50⟩ 10 1 black false,
   mkRigidBody ⟨70, 50⟩ 10 1 black false,
   mkRigidBody ⟨250, 50⟩ 10 1 black false,
   mkRigidBody ⟨255, 50⟩ 10 1 black false]

/-- Heap addresses for `gridBodies` under which the pair hashes of (0,1) and
(2,3) collide: 2 XOR (4 << 1) = 10 = 0 XOR (5 << 1). -/
def gridAddrs : ℕ → ℕ := fun k => [2, 4, 0, 5].getD k 0

/-!
## Theorems

First the unfolding lemmas for the vector instances, then one theorem per
claim (with witnesses and counterexamples where called for).
-/

@[simp] theorem Vec2.add_def (a b : Vec2) : a + b = ⟨a.x + b.x, a.y + b.y⟩ := rfl

@[simp] theorem Vec2.sub_def (a b : Vec2) : a - b = ⟨a.x - b.x, a.y - b.y⟩ := rfl

@[simp] theorem Vec2.neg_def (a : Vec2) : -a = ⟨-a.x, -a.y⟩ := rfl

@[simp] theorem Vec2.smul_def (c : ℚ) (v : Vec2) : c • v = ⟨c * v.x, c * v.y⟩ := rfl

/-- C1 (evidence): the `RigidBody` constructor performs no validation and has
no failure path: called with radius `-5` and mass `0` it still produces a
body carrying exactly those attributes (with `inertia = 0.5·m·r² = 0`),
rather than signalling an error as the spec demands. -/
theorem mkRigidBody_accepts_nonpositive :
    (mkRigidBody ⟨0, 0⟩ (-5) 0 black false).radius = -5 ∧
    (mkRigidBody ⟨0, 0⟩ (-5) 0 black false).mass = 0 ∧
    (mkRigidBody ⟨0, 0⟩ (-5) 0 black false).inertia = 0 ∧
    (mkRigidBody ⟨0, 0⟩ (-5) 0 black false).isStatic = false := by
  decide

/-- C2 (counterexample): a static body's collision-diagnostic records are NOT
left unchanged by phase 1 of the engine update: a static body holding one
record of lifetime 1 comes out of phase 1 (dt = 1/10) with the record aged to
lifetime 4/5, refuting the claim that only non-static bodies have their
records aged. -/
theorem static_records_aged_in_phase1 :
    ({ mkRigidBody ⟨5, 5⟩ 1 1 black true with
        collisionInfos := [⟨⟨0, 0⟩, ⟨1, 0⟩, 0, 1⟩] } : RigidBody).isStatic = true ∧
    (PhysicsEngine.gravityAndAge ⟨0, 500⟩ (1/10)
        { mkRigidBody ⟨5, 5⟩ 1 1 black true with
            collisionInfos := [⟨⟨0, 0⟩, ⟨1, 0⟩, 0, 1⟩] }).collisionInfos
      = [⟨⟨0, 0⟩, ⟨1, 0⟩, 0, 4/5⟩] := by
  decide

/-- C2 (amended): in phase 1 of the engine update, exactly the non-static
bodies have `gravity * mass` applied as a force, while EVERY body — static or
not — has its collision-diagnostic records aged by `2·dt` and pruned at
lifetime ≤ 0; all other fields are unchanged. -/
theorem gravityAndAge_behaviour (g : Vec2) (dt : ℚ) (b : RigidBody) :
    (PhysicsEngine.gravityAndAge g dt b).position = b.position ∧
    (PhysicsEngine.gravityAndAge g dt b).velocity = b.velocity ∧
    (PhysicsEngine.gravityAndAge g dt b).rotation = b.rotation ∧
    (PhysicsEngine.gravityAndAge g dt b).angularVelocity = b.angularVelocity ∧
    (PhysicsEngine.gravityAndAge g dt b).isStatic = b.isStatic ∧
    (PhysicsEngine.gravityAndAge g dt b).acceleration =
      (if b.isStatic then b.acceleration
       else b.acceleration + (b.mass • g).divScalar b.mass) ∧
    (PhysicsEngine.gravityAndAge g dt b).appliedForce =
      (if b.isStatic then b.appliedForce else b.mass • g) ∧
    (PhysicsEngine.gravityAndAge g dt b).collisionInfos =
      ((b.collisionInfos.map
          (fun i => { i with lifetime := i.lifetime - dt * 2 })).filter
        (fun i => ¬ i.lifetime ≤ 0)) := by
  unfold PhysicsEngine.gravityAndAge RigidBody.updateCollisionInfo RigidBody.applyForce
  by_cases h : b.isStatic <;> simp [h]

/-- C5: momentum conservation for a two-dynamic-body resolution with equal
masses and restitution 1: the total `mass·velocity` of the pair is the same
before and after `checkCollision` (normal and friction impulses are applied
with equal magnitude and opposite sign). -/
theorem checkCollision_momentum (b1 b2 : RigidBody)
    (h1 : b1.isStatic = false) (h2 : b2.isStatic = false)
    (hm : b1.mass = b2.mass)
    (hr1 : b1.restitution = 1) (hr2 : b2.restitution = 1)
    (hov : rawDistance b1 b2 < minDistance b1 b2) :
    b1.mass • (PhysicsEngine.checkCollision b1 b2).1.velocity +
      b2.mass • (PhysicsEngine.checkCollision b1 b2).2.velocity =
    b1.mass • b1.velocity + b2.mass • b2.velocity := by
  unfold PhysicsEngine.checkCollision
  rw [if_pos hov]
  by_cases hv : 0 < velocityAlongNormal b1 b2
  · simp [hv, RigidBody.addCollisionInfo]
  · by_cases ht : 1/1000 < vlength (tangentRaw b1 b2) <;>
      · simp only [hv, if_false, ht, if_true, h1, h2, Bool.not_false,
          if_neg, RigidBody.addCollisionInfo, Vec2.divScalar, Vec2.smul_def,
          Vec2.add_def, Vec2.sub_def, ite_true, ite_false, Bool.false_eq_true,
          not_false_eq_true]
        rw [hm]
        simp [Vec2.mk.injEq, Vec2.divScalar]
        constructor <;> ring

/-- C5 (witness): the head-on scenario instantiates the momentum theorem. -/
theorem checkCollision_momentum_witness :
    ballL.isStatic = false ∧ ballR.isStatic = false ∧
    ballL.mass = ballR.mass ∧ ballL.restitution = 1 ∧ ballR.restitution = 1 ∧
    rawDistance ballL ballR < minDistance ballL ballR ∧
    (ballL.mass • (PhysicsEngine.checkCollision ballL ballR).1.velocity +
        ballR.mass • (PhysicsEngine.checkCollision ballL ballR).2.velocity =
      ballL.mass • ballL.velocity + ballR.mass • ballR.velocity) :=
  ⟨by decide, by decide, by decide, by decide, by decide, by decide,
    checkCollision_momentum ballL ballR (by decide) (by decide) (by decide)
      (by decide) (by decide) (by decide)⟩

/-- C6: separating-pair no-op: for an overlapping pair whose relative contact
velocity along the normal is strictly positive, `checkCollision` leaves both
bodies' linear and angular velocities unchanged. -/
theorem checkCollision_separating_noop (b1 b2 : RigidBody)
    (hov : rawDistance b1 b2 < minDistance b1 b2)
    (hsep : 0 < velocityAlongNormal b1 b2) :
    (PhysicsEngine.checkCollision b1 b2).1.velocity = b1.velocity ∧
    (PhysicsEngine.checkCollision b1 b2).1.angularVelocity = b1.angularVelocity ∧
    (PhysicsEngine.checkCollision b1 b2).2.velocity = b2.velocity ∧
    (PhysicsEngine.checkCollision b1 b2).2.angularVelocity = b2.angularVelocity := by
  unfold PhysicsEngine.checkCollision
  rw [if_pos hov]
  simp [hsep, RigidBody.addCollisionInfo]

/-- C6 (witness): a concrete overlapping separating pair. -/
theorem checkCollision_separating_noop_witness :
    rawDistance sepL sepR < minDistance sepL sepR ∧
    0 < velocityAlongNormal sepL sepR ∧
    ((PhysicsEngine.checkCollision sepL sepR).1.velocity = sepL.velocity ∧
     (PhysicsEngine.checkCollision sepL sepR).1.angularVelocity = sepL.angularVelocity ∧
     (PhysicsEngine.checkCollision sepL sepR).2.velocity = sepR.velocity ∧
     (PhysicsEngine.checkCollision sepL sepR).2.angularVelocity = sepR.angularVelocity) :=
  ⟨by decide, by decide,
    checkCollision_separating_noop sepL sepR (by decide) (by decide)⟩

/-- C7: head-on equal collision: mass 1, radius 10, restitution 1, friction 0,
centres at x = 0 and x = 19, velocities +10 and −10 along X: one resolution
swaps the velocities (to −10 and +10) and separates the centres by at least
20 (they stay on the same horizontal line). -/
theorem headon_equal_collision :
    (PhysicsEngine.checkCollision ballL ballR).1.velocity = ⟨-10, 0⟩ ∧
    (PhysicsEngine.checkCollision ballL ballR).2.velocity = ⟨10, 0⟩ ∧
    20 ≤ (PhysicsEngine.checkCollision ballL ballR).2.position.x -
      (PhysicsEngine.checkCollision ballL ballR).1.position.x ∧
    (PhysicsEngine.checkCollision ballL ballR).1.position.y =
      (PhysicsEngine.checkCollision ballL ballR).2.position.y := by
  decide

/-- C8: Coulomb clamp: whenever the friction branch of a narrow-phase
resolution is reached, the applied tangential impulse magnitude is clamped to
at most `|j · frictionCoeff|`, the normal impulse magnitude times the average
friction coefficient. -/
theorem friction_impulse_clamped (b1 b2 : RigidBody)
    (hov : rawDistance b1 b2 < minDistance b1 b2)
    (happ : ¬ 0 < velocityAlongNormal b1 b2)
    (htan : 1/1000 < vlength (tangentRaw b1 b2)) :
    |frictionJt b1 b2| ≤ |normalImpulseJ b1 b2 * frictionCoeff b1 b2| := by
  unfold frictionJt clampQ frictionLimit
  split_ifs with hlo hhi
  · rw [abs_neg, abs_abs]
  · rw [abs_abs]
  · push_neg at hlo hhi
    rw [abs_le]
    exact ⟨hlo, hhi⟩

/-- C8 (witness): a dynamic body sliding against a static one with tangential
speed a hundred times the approach speed. -/
theorem friction_impulse_clamped_witness :
    rawDistance slideB wallB < minDistance slideB wallB ∧
    ¬ 0 < velocityAlongNormal slideB wallB ∧
    1/1000 < vlength (tangentRaw slideB wallB) ∧
    |frictionJt slideB wallB| ≤ |normalImpulseJ slideB wallB * frictionCoeff slideB wallB| :=
  ⟨by decide, by decide, by decide,
    friction_impulse_clamped slideB wallB (by decide) (by decide) (by decide)⟩

/-- C10: for every overlapping pair (not both static), even in the
separating early-exit case the resolution still pushes the centres apart
along the normal by `overlap · 1.01` and appends one collision-diagnostic
record to each body; only the velocities are left unchanged. -/
theorem correction_precedes_separating_exit (b1 b2 : RigidBody)
    (hov : rawDistance b1 b2 < minDistance b1 b2)
    (hsep : 0 < velocityAlongNormal b1 b2)
    (hns : ¬ (b1.isStatic = true ∧ b2.isStatic = true)) :
    ((PhysicsEngine.checkCollision b1 b2).2.position -
        (PhysicsEngine.checkCollision b1 b2).1.position =
      (b2.position - b1.position) + (overlap b1 b2 * (101/100)) • colNormal b1 b2) ∧
    (PhysicsEngine.checkCollision b1 b2).1.collisionInfos =
      b1.collisionInfos ++ [⟨contactPoint b1 b2, -(colNormal b1 b2), overlap b1 b2, 1⟩] ∧
    (PhysicsEngine.checkCollision b1 b2).2.collisionInfos =
      b2.collisionInfos ++ [⟨contactPoint b1 b2, colNormal b1 b2, overlap b1 b2, 1⟩] ∧
    (PhysicsEngine.checkCollision b1 b2).1.velocity = b1.velocity ∧
    (PhysicsEngine.checkCollision b1 b2).2.velocity = b2.velocity := by
  unfold PhysicsEngine.checkCollision
  rw [if_pos hov]
  simp only [hsep, if_true, RigidBody.addCollisionInfo]
  refine ⟨?_, by simp, by simp, by simp, by simp⟩
  unfold corrPos1 corrPos2
  by_cases s1 : b1.isStatic <;> by_cases s2 : b2.isStatic
  · exact absurd ⟨s1, s2⟩ hns
  all_goals simp [s1, s2, Vec2.mk.injEq]
  all_goals constructor <;> ring

/-- C10 (witness): the separating pair `sepL, sepR` still has its positions
corrected and its diagnostic records appended. -/
theorem correction_precedes_separating_exit_witness :
    rawDistance sepL sepR < minDistance sepL sepR ∧
    0 < velocityAlongNormal sepL sepR ∧
    ¬ (sepL.isStatic = true ∧ sepR.isStatic = true) ∧
    ((PhysicsEngine.checkCollision sepL sepR).2.position -
        (PhysicsEngine.checkCollision sepL sepR).1.position =
      (sepR.position - sepL.position) +
        (overlap sepL sepR * (101/100)) • colNormal sepL sepR) :=
  ⟨by decide, by decide, by decide,
    (correction_precedes_separating_exit sepL sepR (by decide) (by decide)
      (by decide)).1⟩

/-- C9: boundary resolution refines its specification: `checkBoundaryCollision`
is a no-op for a static body, and for a dynamic body it equals the
composition of the four independent wall resolutions (clamp inside, reflect
perpendicular velocity scaled by restitution, damp tangential and angular
velocity by `1 - friction`), X-axis walls checked before Y-axis walls, with
the impact intensity recorded on any hit. -/
theorem boundary_resolution_matches_spec (width height : ℚ) (b : RigidBody) :
    RigidBody.checkBoundaryCollision width height b = specResolveBoundary width height b ∧
    (b.isStatic = true → RigidBody.checkBoundaryCollision width height b = b) := by
  constructor
  · unfold RigidBody.checkBoundaryCollision specResolveBoundary specWallXLow
      specWallXHigh specWallYLow specWallYHigh reflectScaled dampedBy
    rfl
  · intro h
    unfold RigidBody.checkBoundaryCollision
    simp [h]

/-- C9 (witness): the corner-crossing body resolves two walls in one call as
the spec composition does, and a concrete static body is untouched. -/
theorem boundary_resolution_matches_spec_witness :
    RigidBody.checkBoundaryCollision 100 100 cornerB =
      specResolveBoundary 100 100 cornerB ∧
    RigidBody.checkBoundaryCollision 100 100 staticDemo = staticDemo :=
  ⟨(boundary_resolution_matches_spec 100 100 cornerB).1,
   (boundary_resolution_matches_spec 100 100 staticDemo).2 (by decide)⟩

/-!
### Static-invariance helper lemmas (towards C3)
-/

theorem gravityAndAge_static (g : Vec2) (dt : ℚ) (b : RigidBody)
    (h : b.isStatic = true) :
    (PhysicsEngine.gravityAndAge g dt b).position = b.position ∧
    (PhysicsEngine.gravityAndAge g dt b).velocity = b.velocity ∧
    (PhysicsEngine.gravityAndAge g dt b).rotation = b.rotation ∧
    (PhysicsEngine.gravityAndAge g dt b).isStatic = true := by
  unfold PhysicsEngine.gravityAndAge RigidBody.updateCollisionInfo
  simp [h]

theorem integrateAndBound_static (w h dt : ℚ) (b : RigidBody)
    (hs : b.isStatic = true) :
    PhysicsEngine.integrateAndBound w h dt b = b := by
  unfold PhysicsEngine.integrateAndBound RigidBody.update
    RigidBody.checkBoundaryCollision
  simp [hs]

theorem checkCollision_fst_static (b1 b2 : RigidBody) (h : b1.isStatic = true) :
    (PhysicsEngine.checkCollision b1 b2).1.position = b1.position ∧
    (PhysicsEngine.checkCollision b1 b2).1.velocity = b1.velocity ∧
    (PhysicsEngine.checkCollision b1 b2).1.rotation = b1.rotation ∧
    (PhysicsEngine.checkCollision b1 b2).1.isStatic = true := by
  unfold PhysicsEngine.checkCollision corrPos1
  by_cases hov : rawDistance b1 b2 < minDistance b1 b2 <;>
    by_cases hv : 0 < velocityAlongNormal b1 b2 <;>
      by_cases ht : ((1000:ℚ))⁻¹ < vlength (tangentRaw b1 b2) <;>
        simp [hov, hv, ht, h, RigidBody.addCollisionInfo, one_div]

theorem checkCollision_snd_static (b1 b2 : RigidBody) (h : b2.isStatic = true) :
    (PhysicsEngine.checkCollision b1 b2).2.position = b2.position ∧
    (PhysicsEngine.checkCollision b1 b2).2.velocity = b2.velocity ∧
    (PhysicsEngine.checkCollision b1 b2).2.rotation = b2.rotation ∧
    (PhysicsEngine.checkCollision b1 b2).2.isStatic = true := by
  unfold PhysicsEngine.checkCollision corrPos2
  by_cases hov : rawDistance b1 b2 < minDistance b1 b2 <;>
    by_cases hv : 0 < velocityAlongNormal b1 b2 <;>
      by_cases ht : ((1000:ℚ))⁻¹ < vlength (tangentRaw b1 b2) <;>
        simp [hov, hv, ht, h, RigidBody.addCollisionInfo, one_div]

theorem resolveOne_static (bs : List RigidBody) (p : ℕ × ℕ) (i : ℕ)
    (b : RigidBody) (hb : bs[i]? = some b) (hs : b.isStatic = true) :
    ∃ b', (PhysicsEngine.resolveOne bs p)[i]? = some b' ∧
      b'.isStatic = true ∧ b'.position = b.position ∧
      b'.velocity = b.velocity ∧ b'.rotation = b.rotation := by
  have hlen : i < bs.length := by
    rcases List.getElem?_eq_some.mp hb with ⟨hl, _⟩
    exact hl
  unfold PhysicsEngine.resolveOne
  cases h1 : bs[p.1]? with
  | none => exact ⟨b, by simp [h1, hb], hs, rfl, rfl, rfl⟩
  | some b1 =>
    cases h2 : bs[p.2]? with
    | none => exact ⟨b, by simp [h1, h2, hb], hs, rfl, rfl, rfl⟩
    | some b2 =>
      by_cases hstat : b1.isStatic ∧ b2.isStatic
      · exact ⟨b, by simp [h1, h2, hstat, hb], hs, rfl, rfl, rfl⟩
      · simp only [h1, h2, if_neg hstat]
        by_cases hp2 : p.2 = i
        · subst hp2
          have hb2 : b2 = b := by rw [hb] at h2; exact (Option.some.injEq _ _).mp h2.symm ▸ rfl
          have hlen2 : p.2 < ((bs.set p.1 (PhysicsEngine.checkCollision b1 b2).1)).length := by
            simpa using hlen
          refine ⟨(PhysicsEngine.checkCollision b1 b2).2, ?_, ?_⟩
          · simp [List.getElem?_set_self hlen2]
          · have := checkCollision_snd_static b1 b2 (hb2 ▸ hs)
            exact ⟨this.2.2.2, hb2 ▸ this.1, hb2 ▸ this.2.1, hb2 ▸ this.2.2.1⟩
        · rw [List.getElem?_set_ne (fun hcontra => hp2 hcontra)]
          by_cases hp1 : p.1 = i
          · subst hp1
            have hb1 : b1 = b := by rw [hb] at h1; exact (Option.some.injEq _ _).mp h1.symm ▸ rfl
            refine ⟨(PhysicsEngine.checkCollision b1 b2).1, ?_, ?_⟩
            · simp [List.getElem?_set_self hlen]
            · have := checkCollision_fst_static b1 b2 (hb1 ▸ hs)
              exact ⟨this.2.2.2, hb1 ▸ this.1, hb1 ▸ this.2.1, hb1 ▸ this.2.2.1⟩
          · rw [List.getElem?_set_ne (fun hcontra => hp1 hcontra)]
            exact ⟨b, hb, hs, rfl, rfl, rfl⟩

theorem resolvePairs_static (pairs : List (ℕ × ℕ)) :
    ∀ (bs : List RigidBody) (i : ℕ) (b : RigidBody),
      bs[i]? = some b → b.isStatic = true →
      ∃ b', (PhysicsEngine.resolvePairs pairs bs)[i]? = some b' ∧
        b'.isStatic = true ∧ b'.position = b.position ∧
        b'.velocity = b.velocity ∧ b'.rotation = b.rotation := by
  induction pairs with
  | nil => exact fun bs i b hb hs => ⟨b, hb, hs, rfl, rfl, rfl⟩
  | cons p rest ih =>
    intro bs i b hb hs
    obtain ⟨b1, hb1, hs1, hpos1, hvel1, hrot1⟩ := resolveOne_static bs p i b hb hs
    obtain ⟨b2, hb2, hs2, hpos2, hvel2, hrot2⟩ :=
      ih (PhysicsEngine.resolveOne bs p) i b1 hb1 hs1
    exact ⟨b2, hb2, hs2, hpos2.trans hpos1, hvel2.trans hvel1, hrot2.trans hrot1⟩

theorem PhysicsEngine.update_static (addrs : ℕ → ℕ) (dt : ℚ)
    (e : PhysicsEngine) (i : ℕ) (b : RigidBody)
    (hb : e.bodies[i]? = some b) (hs : b.isStatic = true) :
    ∃ b', (PhysicsEngine.update addrs dt e).bodies[i]? = some b' ∧
      b'.isStatic = true ∧ b'.position = b.position ∧
      b'.velocity = b.velocity ∧ b'.rotation = b.rotation := by
  obtain ⟨hpos1, hvel1, hrot1, hs1⟩ := gravityAndAge_static e.gravity dt b hs
  have h1 : (e.bodies.map (PhysicsEngine.gravityAndAge e.gravity dt))[i]? =
      some (PhysicsEngine.gravityAndAge e.gravity dt b) := by
    rw [List.getElem?_map, hb]; rfl
  have h2 : ((e.bodies.map (PhysicsEngine.gravityAndAge e.gravity dt)).map
      (PhysicsEngine.integrateAndBound e.worldWidth e.worldHeight dt))[i]? =
      some (PhysicsEngine.gravityAndAge e.gravity dt b) := by
    rw [List.getElem?_map, h1, Option.map_some',
      integrateAndBound_static _ _ _ _ hs1]
  obtain ⟨b', hb', hs', hpos', hvel', hrot'⟩ :=
    resolvePairs_static _ _ i (PhysicsEngine.gravityAndAge e.gravity dt b) h2 hs1
  exact ⟨b', hb', hs', hpos'.trans hpos1, hvel'.trans hvel1, hrot'.trans hrot1⟩

/-- C3: static invariance: a body whose static flag is set keeps its
position, velocity and rotation (and stays static) across any sequence of
engine `update` calls, boundary resolutions and narrow-phase resolutions
included. -/
theorem static_invariance (addrs : ℕ → ℕ) (dts : List ℚ) (e : PhysicsEngine)
    (i : ℕ) (b : RigidBody) (hb : e.bodies[i]? = some b)
    (hs : b.isStatic = true) :
    ∃ b', (PhysicsEngine.run addrs dts e).bodies[i]? = some b' ∧
      b'.isStatic = true ∧ b'.position = b.position ∧
      b'.velocity = b.velocity ∧ b'.rotation = b.rotation := by
  induction dts generalizing e b with
  | nil => exact ⟨b, hb, hs, rfl, rfl, rfl⟩
  | cons dt rest ih =>
    obtain ⟨b1, hb1, hs1, hpos1, hvel1, hrot1⟩ :=
      PhysicsEngine.update_static addrs dt e i b hb hs
    obtain ⟨b2, hb2, hs2, hpos2, hvel2, hrot2⟩ :=
      ih (PhysicsEngine.update addrs dt e) b1 hb1 hs1
    exact ⟨b2, hb2, hs2, hpos2.trans hpos1, hvel2.trans hvel1, hrot2.trans hrot1⟩

/-- C3 (witness): a static body in a one-body engine keeps its state across
two concrete steps. -/
theorem static_invariance_witness :
    ({ mkPhysicsEngine 100 100 with bodies := [staticDemo] } :
        PhysicsEngine).bodies[0]? = some staticDemo ∧
    staticDemo.isStatic = true ∧
    ∃ b', (PhysicsEngine.run (fun k => k) [1/60, 1/60]
        { mkPhysicsEngine 100 100 with bodies := [staticDemo] }).bodies[0]? = some b' ∧
      b'.isStatic = true ∧ b'.position = staticDemo.position ∧
      b'.velocity = staticDemo.velocity ∧ b'.rotation = staticDemo.rotation :=
  ⟨rfl, rfl,
    static_invariance (fun k => k) [1/60, 1/60]
      { mkPhysicsEngine 100 100 with bodies := [staticDemo] } 0 staticDemo rfl rfl⟩

/-!
### Broad-phase lemmas (towards C4)
-/

theorem truncQ_mono {a b : ℚ} (hab : a ≤ b) : truncQ a ≤ truncQ b := by
  unfold truncQ
  split_ifs with h1 h2 h3
  · exact Int.floor_le_floor hab
  · exact absurd (h1.trans hab) h2
  · calc (⌈a⌉ : ℤ) ≤ 0 := Int.ceil_le.mpr (by exact_mod_cast le_of_not_le h1)
      _ ≤ ⌊b⌋ := Int.floor_nonneg.mpr h3
  · exact Int.ceil_le_ceil hab

theorem clampI_mono {lo hi : ℤ} (hlohi : lo ≤ hi) {a b : ℤ} (hab : a ≤ b) :
    clampI a lo hi ≤ clampI b lo hi := by
  unfold clampI
  split_ifs <;> omega

theorem clampI_bounds {lo hi : ℤ} (hlohi : lo ≤ hi) (v : ℤ) :
    lo ≤ clampI v lo hi ∧ clampI v lo hi ≤ hi := by
  unfold clampI
  split_ifs <;> omega

theorem getCellX_mono (w cs : ℚ) (hcs : 0 < cs)
    (hW : 1 ≤ SpatialGrid.gridW w cs) {a b : ℚ} (hab : a ≤ b) :
    SpatialGrid.getCellX w cs a ≤ SpatialGrid.getCellX w cs b := by
  unfold SpatialGrid.getCellX
  exact clampI_mono (by omega) (truncQ_mono ((div_le_div_iff_of_pos_right hcs).mpr hab))

theorem getCellY_mono (h cs : ℚ) (hcs : 0 < cs)
    (hH : 1 ≤ SpatialGrid.gridH h cs) {a b : ℚ} (hab : a ≤ b) :
    SpatialGrid.getCellY h cs a ≤ SpatialGrid.getCellY h cs b := by
  unfold SpatialGrid.getCellY
  exact clampI_mono (by omega) (truncQ_mono ((div_le_div_iff_of_pos_right hcs).mpr hab))

theorem getCellX_bounds (w cs : ℚ) (hW : 1 ≤ SpatialGrid.gridW w cs) (x : ℚ) :
    0 ≤ SpatialGrid.getCellX w cs x ∧
      SpatialGrid.getCellX w cs x ≤ SpatialGrid.gridW w cs - 1 := by
  unfold SpatialGrid.getCellX
  exact clampI_bounds (by omega) _

theorem getCellY_bounds (h cs : ℚ) (hH : 1 ≤ SpatialGrid.gridH h cs) (y : ℚ) :
    0 ≤ SpatialGrid.getCellY h cs y ∧
      SpatialGrid.getCellY h cs y ≤ SpatialGrid.gridH h cs - 1 := by
  unfold SpatialGrid.getCellY
  exact clampI_bounds (by omega) _

theorem mem_intRangeGo :
    ∀ (n : ℕ) (x a : ℤ), a ∈ SpatialGrid.intRangeGo n x ↔ x ≤ a ∧ a < x + n := by
  intro n
  induction n with
  | zero =>
    intro x a
    simp only [SpatialGrid.intRangeGo, List.not_mem_nil, false_iff]
    omega
  | succ m ih =>
    intro x a
    rw [SpatialGrid.intRangeGo, List.mem_cons, ih (x + 1) a]
    omega

theorem mem_intRange {lo hi a : ℤ} :
    a ∈ SpatialGrid.intRange lo hi ↔ lo ≤ a ∧ a ≤ hi := by
  rw [SpatialGrid.intRange, mem_intRangeGo]
  omega

theorem intRangeGo_nodup : ∀ (n : ℕ) (x : ℤ), (SpatialGrid.intRangeGo n x).Nodup := by
  intro n
  induction n with
  | zero => intro x; simp [SpatialGrid.intRangeGo]
  | succ m ih =>
    intro x
    rw [SpatialGrid.intRangeGo, List.nodup_cons]
    refine ⟨fun hmem => ?_, ih (x + 1)⟩
    rw [mem_intRangeGo] at hmem
    omega

theorem intRange_nodup (lo hi : ℤ) : (SpatialGrid.intRange lo hi).Nodup :=
  intRangeGo_nodup _ _

theorem cellIndex_inj {W x1 x2 y1 y2 : ℤ} (hx1 : 0 ≤ x1) (hx1W : x1 < W)
    (hx2 : 0 ≤ x2) (hx2W : x2 < W)
    (heq : y1 * W + x1 = y2 * W + x2) : y1 = y2 ∧ x1 = x2 := by
  have hW : 0 < W := by omega
  have hyW : (y1 - y2) * W = x2 - x1 := by linear_combination heq
  have hy : y1 = y2 := by
    by_contra hy
    rcases lt_or_gt_of_ne hy with hlt | hgt
    · have h1 : y1 - y2 ≤ -1 := by omega
      have h2 : (y1 - y2) * W ≤ (-1) * W :=
        mul_le_mul_of_nonneg_right h1 hW.le
      rw [hyW] at h2
      linarith
    · have h1 : (1 : ℤ) ≤ y1 - y2 := by omega
      have h2 : (1 : ℤ) * W ≤ (y1 - y2) * W :=
        mul_le_mul_of_nonneg_right h1 hW.le
      rw [hyW] at h2
      linarith
  refine ⟨hy, ?_⟩
  subst hy
  omega

theorem getCellsForBody_nodup (w h cs : ℚ) (hW : 1 ≤ SpatialGrid.gridW w cs)
    (b : RigidBody) : (SpatialGrid.getCellsForBody w h cs b).Nodup := by
  unfold SpatialGrid.getCellsForBody SpatialGrid.getCellIndex
  apply List.nodup_flatMap.mpr
  refine ⟨fun y _ => (intRange_nodup _ _).map (fun a b hab => by omega), ?_⟩
  apply List.Pairwise.imp ?_ (intRange_nodup _ _)
  intro y1 y2 hne a ha1 ha2
  simp only [List.mem_map] at ha1 ha2
  obtain ⟨x1, hx1, rfl⟩ := ha1
  obtain ⟨x2, hx2, heq⟩ := ha2
  rw [mem_intRange] at hx1 hx2
  have hb1 := getCellX_bounds w cs hW (b.position.x - b.radius)
  have hb2 := getCellX_bounds w cs hW (b.position.x + b.radius)
  exact hne (cellIndex_inj (W := SpatialGrid.gridW w cs)
    (by omega) (by omega) (by omega) (by omega) heq.symm).1

/-- Membership in a body's cell list, through a shared cell coordinate. -/
theorem mem_getCellsForBody (w h cs : ℚ) (b : RigidBody) {cx cy : ℤ}
    (hx1 : SpatialGrid.getCellX w cs (b.position.x - b.radius) ≤ cx)
    (hx2 : cx ≤ SpatialGrid.getCellX w cs (b.position.x + b.radius))
    (hy1 : SpatialGrid.getCellY h cs (b.position.y - b.radius) ≤ cy)
    (hy2 : cy ≤ SpatialGrid.getCellY h cs (b.position.y + b.radius)) :
    SpatialGrid.getCellIndex w cs cx cy ∈ SpatialGrid.getCellsForBody w h cs b := by
  unfold SpatialGrid.getCellsForBody
  rw [List.mem_flatMap]
  exact ⟨cy, mem_intRange.mpr ⟨hy1, hy2⟩,
    List.mem_map.mpr ⟨cx, mem_intRange.mpr ⟨hx1, hx2⟩, rfl⟩⟩

theorem insert_foldl_apply (k : ℕ) :
    ∀ (L : List ℤ) (cells : ℤ → List ℕ) (idx : ℤ), L.Nodup →
      (L.foldl (fun c i => Function.update c i (c i ++ [k])) cells) idx =
        cells idx ++ (if idx ∈ L then [k] else []) := by
  intro L
  induction L with
  | nil =>
    intro cells idx _
    simp
  | cons i0 rest ih =>
    intro cells idx hnd
    rw [List.foldl_cons, ih _ idx (List.nodup_cons.mp hnd).2]
    by_cases hidx : idx = i0
    · subst hidx
      have hni : idx ∉ rest := (List.nodup_cons.mp hnd).1
      simp [Function.update_apply, hni]
    · simp [Function.update_apply, hidx, List.mem_cons]

theorem insert_apply (w h cs : ℚ) (k : ℕ) (b : RigidBody) (cells : ℤ → List ℕ)
    (idx : ℤ) (hnd : (SpatialGrid.getCellsForBody w h cs b).Nodup) :
    SpatialGrid.insert w h cs k b cells idx =
      cells idx ++
        (if idx ∈ SpatialGrid.getCellsForBody w h cs b then [k] else []) := by
  unfold SpatialGrid.insert
  exact insert_foldl_apply k _ cells idx hnd

theorem mem_build (w h cs : ℚ)
    (hnd : ∀ b : RigidBody, (SpatialGrid.getCellsForBody w h cs b).Nodup) :
    ∀ (rest : List RigidBody) (k0 : ℕ) (cells : ℤ → List ℕ) (idx : ℤ) (k' : ℕ),
      (k' ∈ SpatialGrid.build w h cs k0 rest cells idx ↔
        k' ∈ cells idx ∨ ∃ m b, rest[m]? = some b ∧ k' = k0 + m ∧
          idx ∈ SpatialGrid.getCellsForBody w h cs b) := by
  intro rest
  induction rest with
  | nil =>
    intro k0 cells idx k'
    simp [SpatialGrid.build]
  | cons b0 rest ih =>
    intro k0 cells idx k'
    rw [show SpatialGrid.build w h cs k0 (b0 :: rest) cells =
      SpatialGrid.build w h cs (k0 + 1) rest (SpatialGrid.insert w h cs k0 b0 cells)
      from rfl]
    rw [ih (k0 + 1) _ idx k']
    rw [insert_apply w h cs k0 b0 cells idx (hnd b0)]
    constructor
    · rintro (hmem | ⟨m, b, hb, hk, hidx⟩)
      · rcases List.mem_append.mp hmem with hmem | hmem
        · exact Or.inl hmem
        · by_cases hc : idx ∈ SpatialGrid.getCellsForBody w h cs b0
          · rw [if_pos hc] at hmem
            simp only [List.mem_singleton] at hmem
            subst hmem
            exact Or.inr ⟨0, b0, by simp, by omega, hc⟩
          · rw [if_neg hc] at hmem
            exact absurd hmem (List.not_mem_nil _)
      · exact Or.inr ⟨m + 1, b, by simpa using hb, by omega, hidx⟩
    · rintro (hmem | ⟨m, b, hb, hk, hidx⟩)
      · exact Or.inl (List.mem_append.mpr (Or.inl hmem))
      · cases m with
        | zero =>
          simp only [List.getElem?_cons_zero, Option.some.injEq] at hb
          subst hb
          refine Or.inl (List.mem_append.mpr (Or.inr ?_))
          rw [if_pos hidx]
          simp [hk]
        | succ m' =>
          refine Or.inr ⟨m', b, by simpa using hb, by omega, hidx⟩

theorem build_nodup_bound (w h cs : ℚ)
    (hnd : ∀ b : RigidBody, (SpatialGrid.getCellsForBody w h cs b).Nodup) :
    ∀ (rest : List RigidBody) (k0 : ℕ) (cells : ℤ → List ℕ),
      (∀ idx, (cells idx).Nodup ∧ ∀ k ∈ cells idx, k < k0) →
      ∀ idx, (SpatialGrid.build w h cs k0 rest cells idx).Nodup ∧
        ∀ k ∈ SpatialGrid.build w h cs k0 rest cells idx,
          k < k0 + rest.length := by
  intro rest
  induction rest with
  | nil =>
    intro k0 cells hinv idx
    exact ⟨(hinv idx).1, fun k hk => by
      have := (hinv idx).2 k hk
      simpa using Nat.lt_of_lt_of_le this (by omega)⟩
  | cons b0 rest ih =>
    intro k0 cells hinv idx
    have hstep : ∀ idx', ((SpatialGrid.insert w h cs k0 b0 cells) idx').Nodup ∧
        ∀ k ∈ (SpatialGrid.insert w h cs k0 b0 cells) idx', k < k0 + 1 := by
      intro idx'
      rw [insert_apply w h cs k0 b0 cells idx' (hnd b0)]
      constructor
      · by_cases hc : idx' ∈ SpatialGrid.getCellsForBody w h cs b0
        · rw [if_pos hc]
          refine List.Nodup.append (hinv idx').1 (List.nodup_singleton k0) ?_
          intro a ha ha'
          simp only [List.mem_singleton] at ha'
          subst ha'
          exact absurd ((hinv idx').2 _ ha) (lt_irrefl a)
        · rw [if_neg hc, List.append_nil]
          exact (hinv idx').1
      · intro k hk
        rcases List.mem_append.mp hk with hk | hk
        · exact Nat.lt_succ_of_lt ((hinv idx').2 _ hk)
        · by_cases hc : idx' ∈ SpatialGrid.getCellsForBody w h cs b0
          · rw [if_pos hc] at hk
            simp only [List.mem_singleton] at hk
            omega
          · rw [if_neg hc] at hk
            exact absurd hk (List.not_mem_nil _)
    have hres := ih (k0 + 1) _ hstep idx
    rw [show SpatialGrid.build w h cs k0 (b0 :: rest) cells =
      SpatialGrid.build w h cs (k0 + 1) rest (SpatialGrid.insert w h cs k0 b0 cells)
      from rfl]
    exact ⟨hres.1, fun k hk => by
      have := hres.2 k hk
      simp only [List.length_cons]
      omega⟩

theorem buildCells_nodup (w h cs : ℚ) (hW : 1 ≤ SpatialGrid.gridW w cs)
    (bodies : List RigidBody) (idx : ℤ) :
    (SpatialGrid.buildCells w h cs bodies idx).Nodup :=
  (build_nodup_bound w h cs (getCellsForBody_nodup w h cs hW) bodies 0 _
    (fun _ => ⟨List.nodup_nil, by simp⟩) idx).1

theorem mem_buildCells (w h cs : ℚ) (hW : 1 ≤ SpatialGrid.gridW w cs)
    (bodies : List RigidBody) (idx : ℤ) (k : ℕ) :
    k ∈ SpatialGrid.buildCells w h cs bodies idx ↔
      ∃ b, bodies[k]? = some b ∧
        idx ∈ SpatialGrid.getCellsForBody w h cs b := by
  unfold SpatialGrid.buildCells
  rw [mem_build w h cs (getCellsForBody_nodup w h cs hW) bodies 0 _ idx k]
  simp only [List.not_mem_nil, false_or, Nat.zero_add]
  constructor
  · rintro ⟨m, b, hb, rfl, hidx⟩
    exact ⟨b, hb, hidx⟩
  · rintro ⟨b, hb, hidx⟩
    exact ⟨k, b, hb, rfl, hidx⟩

theorem mem_of_mem_cellPairs :
    ∀ (l : List ℕ) (p : ℕ × ℕ), p ∈ SpatialGrid.cellPairs l →
      p.1 ∈ l ∧ p.2 ∈ l := by
  intro l
  induction l with
  | nil =>
    intro p hp
    simp [SpatialGrid.cellPairs] at hp
  | cons a rest ih =>
    intro p hp
    rw [SpatialGrid.cellPairs] at hp
    rcases List.mem_append.mp hp with hp | hp
    · rcases List.mem_map.mp hp with ⟨b, hb, rfl⟩
      exact ⟨List.mem_cons_self _ _, List.mem_cons_of_mem _ hb⟩
    · exact ⟨List.mem_cons_of_mem _ (ih p hp).1,
        List.mem_cons_of_mem _ (ih p hp).2⟩

theorem cellPairs_ne_of_nodup :
    ∀ (l : List ℕ), l.Nodup → ∀ p ∈ SpatialGrid.cellPairs l, p.1 ≠ p.2 := by
  intro l
  induction l with
  | nil =>
    intro _ p hp
    simp [SpatialGrid.cellPairs] at hp
  | cons a rest ih =>
    intro hnd p hp
    rw [SpatialGrid.cellPairs] at hp
    rcases List.mem_append.mp hp with hp | hp
    · rcases List.mem_map.mp hp with ⟨b, hb, rfl⟩
      intro hab
      have hab' : a = b := hab
      exact (List.nodup_cons.mp hnd).1 (by rw [hab']; exact hb)
    · exact ih (List.nodup_cons.mp hnd).2 p hp

theorem cellPairs_complete :
    ∀ (l : List ℕ) (a b : ℕ), a ∈ l → b ∈ l → a ≠ b →
      (a, b) ∈ SpatialGrid.cellPairs l ∨ (b, a) ∈ SpatialGrid.cellPairs l := by
  intro l
  induction l with
  | nil =>
    intro a b ha _ _
    simp at ha
  | cons c rest ih =>
    intro a b ha hb hne
    rw [SpatialGrid.cellPairs]
    rcases List.mem_cons.mp ha with ha1 | ha2
    · subst ha1
      rcases List.mem_cons.mp hb with hb1 | hb2
      · exact absurd hb1.symm hne
      · exact Or.inl (List.mem_append.mpr (Or.inl (List.mem_map.mpr ⟨b, hb2, rfl⟩)))
    · rcases List.mem_cons.mp hb with hb1 | hb2
      · subst hb1
        exact Or.inr (List.mem_append.mpr (Or.inl (List.mem_map.mpr ⟨a, ha2, rfl⟩)))
      · rcases ih a b ha2 hb2 hne with hmem | hmem
        · exact Or.inl (List.mem_append.mpr (Or.inr hmem))
        · exact Or.inr (List.mem_append.mpr (Or.inr hmem))

theorem dedupByHash_covers (addrs : ℕ → ℕ) :
    ∀ (stream : List (ℕ × ℕ)) (processed : List ℕ) (p : ℕ × ℕ), p ∈ stream →
      SpatialGrid.pairHash addrs p ∈ processed ∨
      ∃ q ∈ SpatialGrid.dedupByHash addrs stream processed,
        SpatialGrid.pairHash addrs q = SpatialGrid.pairHash addrs p := by
  intro stream
  induction stream with
  | nil =>
    intro processed p hp
    simp at hp
  | cons q0 rest ih =>
    intro processed p hp
    rw [SpatialGrid.dedupByHash]
    by_cases hq : SpatialGrid.pairHash addrs q0 ∈ processed
    · rw [if_pos hq]
      rcases List.mem_cons.mp hp with rfl | hp
      · exact Or.inl hq
      · exact ih processed p hp
    · rw [if_neg hq]
      rcases List.mem_cons.mp hp with rfl | hp
      · exact Or.inr ⟨p, List.mem_cons_self _ _, rfl⟩
      · rcases ih (SpatialGrid.pairHash addrs q0 :: processed) p hp with
          hin | ⟨q, hq1, hq2⟩
        · rcases List.mem_cons.mp hin with he | hin
          · exact Or.inr ⟨q0, List.mem_cons_self _ _, he.symm⟩
          · exact Or.inl hin
        · exact Or.inr ⟨q, List.mem_cons_of_mem _ hq1, hq2⟩

theorem dedupByHash_subset (addrs : ℕ → ℕ) :
    ∀ (stream : List (ℕ × ℕ)) (processed : List ℕ) (q : ℕ × ℕ),
      q ∈ SpatialGrid.dedupByHash addrs stream processed → q ∈ stream := by
  intro stream
  induction stream with
  | nil =>
    intro processed q hq
    simp [SpatialGrid.dedupByHash] at hq
  | cons q0 rest ih =>
    intro processed q hq
    rw [SpatialGrid.dedupByHash] at hq
    by_cases hq0 : SpatialGrid.pairHash addrs q0 ∈ processed
    · rw [if_pos hq0] at hq
      exact List.mem_cons_of_mem _ (ih _ q hq)
    · rw [if_neg hq0] at hq
      rcases List.mem_cons.mp hq with rfl | hq
      · exact List.mem_cons_self _ _
      · exact List.mem_cons_of_mem _ (ih _ q hq)

theorem pairHash_comm (addrs : ℕ → ℕ) (a b : ℕ) :
    SpatialGrid.pairHash addrs (a, b) = SpatialGrid.pairHash addrs (b, a) := by
  unfold SpatialGrid.pairHash
  dsimp only
  split_ifs with h1 h2 h2
  · exact absurd h2 (by omega)
  · rfl
  · rfl
  · rw [show addrs a % 2 ^ 64 = addrs b % 2 ^ 64 from by omega]

/-- From `u² + v² < D²` with `0 < D` conclude `u < D`. -/
theorem lt_of_sq_add_sq_lt (u v D : ℚ) (hD : 0 < D)
    (hlt : u * u + v * v < D * D) : u < D := by
  by_contra hge
  push_neg at hge
  have h1 : D * D ≤ u * u := mul_le_mul hge hge hD.le (le_trans hD.le hge)
  nlinarith [mul_self_nonneg v]

theorem gpc_contains_hash (w h cs : ℚ) (addrs : ℕ → ℕ)
    (bodies : List RigidBody) (p : ℕ × ℕ) (idx : ℤ)
    (hidx : idx ∈ SpatialGrid.intRange 0
      (SpatialGrid.gridW w cs * SpatialGrid.gridH h cs - 1))
    (hp : p ∈ SpatialGrid.cellPairs (SpatialGrid.buildCells w h cs bodies idx)) :
    ∃ q ∈ SpatialGrid.getPotentialCollisions w h cs addrs bodies,
      SpatialGrid.pairHash addrs q = SpatialGrid.pairHash addrs p := by
  have hs : p ∈ (SpatialGrid.intRange 0
      (SpatialGrid.gridW w cs * SpatialGrid.gridH h cs - 1)).flatMap
      (fun idx => SpatialGrid.cellPairs (SpatialGrid.buildCells w h cs bodies idx)) :=
    List.mem_flatMap.mpr ⟨idx, hidx, hp⟩
  rcases dedupByHash_covers addrs _ [] p hs with habs | hq
  · exact absurd habs (List.not_mem_nil _)
  · exact hq

theorem gpc_subset (w h cs : ℚ) (addrs : ℕ → ℕ) (bodies : List RigidBody)
    (q : ℕ × ℕ) (hq : q ∈ SpatialGrid.getPotentialCollisions w h cs addrs bodies) :
    ∃ idx, q ∈ SpatialGrid.cellPairs (SpatialGrid.buildCells w h cs bodies idx) :=
  have := dedupByHash_subset addrs _ [] q hq
  (List.mem_flatMap.mp this).elim (fun idx hidx => ⟨idx, hidx.2⟩)

/-- C4 (amended): broad-phase completeness under hash injectivity: if the
pair hash built from the bodies' addresses is injective on unordered pairs of
distinct body indices, then every pair of bodies whose centre distance is
less than the sum of their (positive) radii appears in
`getPotentialCollisions`, in one order or the other, for every positive cell
size and non-degenerate grid. -/
theorem broadphase_complete_of_hash_injective
    (w h cs : ℚ) (addrs : ℕ → ℕ) (bodies : List RigidBody)
    (hcs : 0 < cs)
    (hW : 1 ≤ SpatialGrid.gridW w cs) (hH : 1 ≤ SpatialGrid.gridH h cs)
    (hinj : ∀ a b c d : Fin bodies.length, a.1 ≠ b.1 → c.1 ≠ d.1 →
      SpatialGrid.pairHash addrs (a.1, b.1) = SpatialGrid.pairHash addrs (c.1, d.1) →
      (a.1 = c.1 ∧ b.1 = d.1) ∨ (a.1 = d.1 ∧ b.1 = c.1))
    (i j : ℕ) (bi bj : RigidBody)
    (hbi : bodies[i]? = some bi) (hbj : bodies[j]? = some bj) (hij : i ≠ j)
    (hri : 0 < bi.radius) (hrj : 0 < bj.radius)
    (hover : dot (rawDiff bi bj) (rawDiff bi bj) <
      minDistance bi bj * minDistance bi bj) :
    (i, j) ∈ SpatialGrid.getPotentialCollisions w h cs addrs bodies ∨
    (j, i) ∈ SpatialGrid.getPotentialCollisions w h cs addrs bodies := by
  have hd : 0 < bi.radius + bj.radius := by linarith
  have hover' : (bj.position.x - bi.position.x) * (bj.position.x - bi.position.x) +
      (bj.position.y - bi.position.y) * (bj.position.y - bi.position.y) <
      (bi.radius + bj.radius) * (bi.radius + bj.radius) := by
    simpa [dot, rawDiff, minDistance] using hover
  have hdx1 : bj.position.x - bi.position.x < bi.radius + bj.radius :=
    lt_of_sq_add_sq_lt _ _ _ hd hover'
  have hdx2 : bi.position.x - bj.position.x < bi.radius + bj.radius :=
    lt_of_sq_add_sq_lt _ (bj.position.y - bi.position.y) _ hd (by nlinarith [hover'])
  have hdy1 : bj.position.y - bi.position.y < bi.radius + bj.radius :=
    lt_of_sq_add_sq_lt _ (bj.position.x - bi.position.x) _ hd (by nlinarith [hover'])
  have hdy2 : bi.position.y - bj.position.y < bi.radius + bj.radius :=
    lt_of_sq_add_sq_lt _ (bj.position.x - bi.position.x) _ hd (by nlinarith [hover'])
  have hcx1 : SpatialGrid.getCellX w cs (bi.position.x - bi.radius) ≤
      SpatialGrid.getCellX w cs
        (max (bi.position.x - bi.radius) (bj.position.x - bj.radius)) :=
    getCellX_mono w cs hcs hW (le_max_left _ _)
  have hcx2 : SpatialGrid.getCellX w cs
      (max (bi.position.x - bi.radius) (bj.position.x - bj.radius)) ≤
      SpatialGrid.getCellX w cs (bi.position.x + bi.radius) :=
    getCellX_mono w cs hcs hW (max_le (by linarith) (by linarith))
  have hcx3 : SpatialGrid.getCellX w cs (bj.position.x - bj.radius) ≤
      SpatialGrid.getCellX w cs
        (max (bi.position.x - bi.radius) (bj.position.x - bj.radius)) :=
    getCellX_mono w cs hcs hW (le_max_right _ _)
  have hcx4 : SpatialGrid.getCellX w cs
      (max (bi.position.x - bi.radius) (bj.position.x - bj.radius)) ≤
      SpatialGrid.getCellX w cs (bj.position.x + bj.radius) :=
    getCellX_mono w cs hcs hW (max_le (by linarith) (by linarith))
  have hcy1 : SpatialGrid.getCellY h cs (bi.position.y - bi.radius) ≤
      SpatialGrid.getCellY h cs
        (max (bi.position.y - bi.radius) (bj.position.y - bj.radius)) :=
    getCellY_mono h cs hcs hH (le_max_left _ _)
  have hcy2 : SpatialGrid.getCellY h cs
      (max (bi.position.y - bi.radius) (bj.position.y - bj.radius)) ≤
      SpatialGrid.getCellY h cs (bi.position.y + bi.radius) :=
    getCellY_mono h cs hcs hH (max_le (by linarith) (by linarith))
  have hcy3 : SpatialGrid.getCellY h cs (bj.position.y - bj.radius) ≤
      SpatialGrid.getCellY h cs
        (max (bi.position.y - bi.radius) (bj.position.y - bj.radius)) :=
    getCellY_mono h cs hcs hH (le_max_right _ _)
  have hcy4 : SpatialGrid.getCellY h cs
      (max (bi.position.y - bi.radius) (bj.position.y - bj.radius)) ≤
      SpatialGrid.getCellY h cs (bj.position.y + bj.radius) :=
    getCellY_mono h cs hcs hH (max_le (by linarith) (by linarith))
  have hmi := mem_getCellsForBody w h cs bi hcx1 hcx2 hcy1 hcy2
  have hmj := mem_getCellsForBody w h cs bj hcx3 hcx4 hcy3 hcy4
  have hcxb := getCellX_bounds w cs hW
    (max (bi.position.x - bi.radius) (bj.position.x - bj.radius))
  have hcyb := getCellY_bounds h cs hH
    (max (bi.position.y - bi.radius) (bj.position.y - bj.radius))
  have hidxr : SpatialGrid.getCellIndex w cs
      (SpatialGrid.getCellX w cs
        (max (bi.position.x - bi.radius) (bj.position.x - bj.radius)))
      (SpatialGrid.getCellY h cs
        (max (bi.position.y - bi.radius) (bj.position.y - bj.radius))) ∈
      SpatialGrid.intRange 0
        (SpatialGrid.gridW w cs * SpatialGrid.gridH h cs - 1) := by
    rw [mem_intRange]
    unfold SpatialGrid.getCellIndex
    have hW0 : (0 : ℤ) ≤ SpatialGrid.gridW w cs := by omega
    have h1 : 0 ≤ SpatialGrid.getCellY h cs
        (max (bi.position.y - bi.radius) (bj.position.y - bj.radius)) *
        SpatialGrid.gridW w cs := mul_nonneg hcyb.1 hW0
    have h2 : SpatialGrid.getCellY h cs
        (max (bi.position.y - bi.radius) (bj.position.y - bj.radius)) *
        SpatialGrid.gridW w cs ≤
        (SpatialGrid.gridH h cs - 1) * SpatialGrid.gridW w cs :=
      mul_le_mul_of_nonneg_right hcyb.2 hW0
    have h3 : (SpatialGrid.gridH h cs - 1) * SpatialGrid.gridW w cs +
        (SpatialGrid.gridW w cs - 1) =
        SpatialGrid.gridW w cs * SpatialGrid.gridH h cs - 1 := by ring
    constructor
    · linarith [hcxb.1]
    · linarith [hcxb.2]
  have final : ∀ q : ℕ × ℕ,
      q ∈ SpatialGrid.getPotentialCollisions w h cs addrs bodies →
      SpatialGrid.pairHash addrs q = SpatialGrid.pairHash addrs (i, j) →
      (i, j) ∈ SpatialGrid.getPotentialCollisions w h cs addrs bodies ∨
      (j, i) ∈ SpatialGrid.getPotentialCollisions w h cs addrs bodies := by
    rintro ⟨q1, q2⟩ hqmem hqhash
    obtain ⟨idx', hqcp⟩ := gpc_subset w h cs addrs bodies _ hqmem
    have hq1mem := (mem_of_mem_cellPairs _ _ hqcp).1
    have hq2mem := (mem_of_mem_cellPairs _ _ hqcp).2
    have hqne : q1 ≠ q2 :=
      cellPairs_ne_of_nodup _ (buildCells_nodup w h cs hW bodies idx') _ hqcp
    obtain ⟨b1', hb1', hmem1'⟩ := (mem_buildCells w h cs hW bodies idx' q1).mp hq1mem
    obtain ⟨b2', hb2', hmem2'⟩ := (mem_buildCells w h cs hW bodies idx' q2).mp hq2mem
    have hq1lt : q1 < bodies.length := (List.getElem?_eq_some.mp hb1').1
    have hq2lt : q2 < bodies.length := (List.getElem?_eq_some.mp hb2').1
    have hilt : i < bodies.length := (List.getElem?_eq_some.mp hbi).1
    have hjlt : j < bodies.length := (List.getElem?_eq_some.mp hbj).1
    rcases hinj ⟨q1, hq1lt⟩ ⟨q2, hq2lt⟩ ⟨i, hilt⟩ ⟨j, hjlt⟩ hqne hij hqhash with
      ⟨h1, h2⟩ | ⟨h1, h2⟩
    · have h1' : q1 = i := h1
      have h2' : q2 = j := h2
      subst h1'
      subst h2'
      exact Or.inl hqmem
    · have h1' : q1 = j := h1
      have h2' : q2 = i := h2
      subst h1'
      subst h2'
      exact Or.inr hqmem
  rcases cellPairs_complete _ i j
    ((mem_buildCells w h cs hW bodies _ i).mpr ⟨bi, hbi, hmi⟩)
    ((mem_buildCells w h cs hW bodies _ j).mpr ⟨bj, hbj, hmj⟩) hij with hpair | hpair
  · obtain ⟨q, hqmem, hqhash⟩ :=
      gpc_contains_hash w h cs addrs bodies (i, j) _ hidxr hpair
    exact final q hqmem hqhash
  · obtain ⟨q, hqmem, hqhash⟩ :=
      gpc_contains_hash w h cs addrs bodies (j, i) _ hidxr hpair
    exact final q hqmem (hqhash.trans (pairHash_comm addrs j i))

/-- C4 (counterexample): broad-phase completeness fails as stated: in a
400 by 100 world with 100-pixel cells, bodies 2 and 3 of `gridBodies` overlap
(centre distance 5, radius sum 20), yet with the addresses `gridAddrs` the
pair hash of (0,1) collides with that of (2,3) (both 10), and
`getPotentialCollisions` returns only [(0,1)] — the overlapping pair is
silently dropped. -/
theorem broadphase_misses_overlapping_pair :
    SpatialGrid.getPotentialCollisions 400 100 100 gridAddrs gridBodies = [(0, 1)] ∧
    gridBodies[2]? = some (mkRigidBody ⟨250, 50⟩ 10 1 black false) ∧
    gridBodies[3]? = some (mkRigidBody ⟨255, 50⟩ 10 1 black false) ∧
    dot (rawDiff (mkRigidBody ⟨250, 50⟩ 10 1 black false)
          (mkRigidBody ⟨255, 50⟩ 10 1 black false))
        (rawDiff (mkRigidBody ⟨250, 50⟩ 10 1 black false)
          (mkRigidBody ⟨255, 50⟩ 10 1 black false)) <
      minDistance (mkRigidBody ⟨250, 50⟩ 10 1 black false)
          (mkRigidBody ⟨255, 50⟩ 10 1 black false) *
        minDistance (mkRigidBody ⟨250, 50⟩ 10 1 black false)
          (mkRigidBody ⟨255, 50⟩ 10 1 black false) ∧
    (0 : ℚ) < 100 ∧ 1 ≤ SpatialGrid.gridW 400 100 ∧ 1 ≤ SpatialGrid.gridH 100 100 ∧
    (2, 3) ∉ SpatialGrid.getPotentialCollisions 400 100 100 gridAddrs gridBodies ∧
    (3, 2) ∉ SpatialGrid.getPotentialCollisions 400 100 100 gridAddrs gridBodies := by
  decide

/-- C4 (witness): with the injective-hash addresses `k + 1` the overlapping
pair of `gridBodies` is found by the broad phase. -/
theorem broadphase_complete_witness :
    (0 : ℚ) < 100 ∧ 1 ≤ SpatialGrid.gridW 400 100 ∧ 1 ≤ SpatialGrid.gridH 100 100 ∧
    ((2, 3) ∈ SpatialGrid.getPotentialCollisions 400 100 100 (fun k => k + 1) gridBodies ∨
     (3, 2) ∈ SpatialGrid.getPotentialCollisions 400 100 100 (fun k => k + 1) gridBodies) :=
  ⟨by decide, by decide, by decide,
    broadphase_complete_of_hash_injective 400 100 100 (fun k => k + 1) gridBodies
      (by decide) (by decide) (by decide) (by decide)
      2 3 (mkRigidBody ⟨250, 50⟩ 10 1 black false)
      (mkRigidBody ⟨255, 50⟩ 10 1 black false)
      (by decide) (by decide) (by decide) (by decide) (by decide) (by decide)⟩

end RigidSim
